import Mathlib

/-
Verification development for the ppconverters repository: four Python CSV
converters (fidelity_401k_IRA_converter.py, morgan_stanley_gsu_converter.py,
vanguard_401k_IRA_converter.py, vanguard_brokerage_converter.py) are shallowly
embedded as pure Lean functions over lists of input lines.

Modelling conventions:
- A file is a list of already-decoded text lines without line terminators.
- Python str operations are re-implemented structurally over `String.data`
  (a `List Char`) so that every definition evaluates inside the kernel.
- Python `float` values are modelled as exact scaled decimals `Int × Nat`
  (mantissa, number of decimal places); the converters only compare decimal
  strings with zero, test their sign, and multiply two of them, so exact
  decimal arithmetic coincides with the Python behaviour except for
  sub-ulp binary rounding, exponent notation, underscores, and inf/nan,
  none of which the repository's data contains.
- `csv.reader` is modelled one record per line (the repository's inputs do
  not contain multi-line quoted records); `csv.writer` is modelled with the
  QUOTE_MINIMAL discipline of the Python csv module.
- A converter returns its stream of written rows, its error-stream lines
  (messages abbreviated, without Python repr interpolation), and an exit
  code; an uncaught exception is modelled as the abort path of the
  corresponding handler.
-/

/-! ### Python string primitives -/

/-- Whitespace characters stripped by Python `str.strip()` (ASCII range). -/
def pyIsSpace (c : Char) : Bool :=
  c == ' ' || c == '\t' || c == '\n' || c == '\r' || c == '\x0b' || c == '\x0c'

/-- Python `str.strip()`. -/
def pyStrip (s : String) : String :=
  ⟨((s.data.dropWhile pyIsSpace).reverse.dropWhile pyIsSpace).reverse⟩

/-- Python `s.startswith(p)`. -/
def startsWithS (p s : String) : Bool :=
  p.data.isPrefixOf s.data

/-- Python `needle in hay` substring test, on the character list of `hay`. -/
def infixAux (needle : List Char) : List Char → Bool
  | [] => needle.isEmpty
  | c :: cs => needle.isPrefixOf (c :: cs) || infixAux needle cs

/-- Python `needle in hay` substring test. -/
def substrIn (needle hay : String) : Bool :=
  infixAux needle.data hay.data

/-- Python `str.lower()` (ASCII). -/
def lowerS (s : String) : String :=
  ⟨s.data.map Char.toLower⟩

/-- Python `s.replace(c, '')` for a single-character pattern: every converter
in this repository only ever replaces the single characters `$`, `,`, `-`
with the empty string. -/
def removeChar (c : Char) (s : String) : String :=
  ⟨s.data.filter (fun x => x != c)⟩

/-- Python `s.lstrip('-')` (fidelity converter, lines 86-87 and 113-114). -/
def lstripMinus (s : String) : String :=
  ⟨s.data.dropWhile (fun x => x == '-')⟩

/-- Python `s[1:] if s.startswith('-') else s` (vanguard brokerage
converter, line 84). -/
def stripLeadMinus (s : String) : String :=
  if startsWithS "-" s then ⟨s.data.drop 1⟩ else s

/-- Python `','.join(row)` (vanguard brokerage converter, line 103). -/
def joinComma : List String → String
  | [] => ""
  | [s] => s
  | s :: rest => s ++ "," ++ joinComma rest

/-- Python `s.split(sep)` for a single-character separator, auxiliary. -/
def splitOnCharAux (sep : Char) : List Char → List Char → List String
  | [], acc => [⟨acc.reverse⟩]
  | x :: xs, acc =>
    if x == sep then ⟨acc.reverse⟩ :: splitOnCharAux sep xs []
    else splitOnCharAux sep xs (x :: acc)

/-- Python `s.split(sep)` for a single-character separator. -/
def splitOnChar (sep : Char) (s : String) : List String :=
  splitOnCharAux sep s.data []

/-! ### CSV reading and writing (Python csv module, default dialect) -/

/-- One-record CSV parser state machine, modelling the Python `csv.reader`
field/quote automaton in its non-strict default mode. State 0 = at field
start, 1 = inside an unquoted field, 2 = inside a quoted field, 3 = just
after a closing quote inside a quoted field. -/
def csvAux (st : Nat) (fld : List Char) (acc : List String) :
    List Char → List String
  | [] => acc ++ [⟨fld⟩]
  | c :: cs =>
    if st == 0 then
      if c == '"' then csvAux 2 fld acc cs
      else if c == ',' then csvAux 0 [] (acc ++ [⟨fld⟩]) cs
      else csvAux 1 (fld ++ [c]) acc cs
    else if st == 1 then
      if c == ',' then csvAux 0 [] (acc ++ [⟨fld⟩]) cs
      else csvAux 1 (fld ++ [c]) acc cs
    else if st == 2 then
      if c == '"' then csvAux 3 fld acc cs
      else csvAux 2 (fld ++ [c]) acc cs
    else
      if c == '"' then csvAux 2 (fld ++ ['"']) acc cs
      else if c == ',' then csvAux 0 [] (acc ++ [⟨fld⟩]) cs
      else csvAux 1 (fld ++ [c]) acc cs

/-- Parse one CSV record from one line. A blank line yields no fields, as
the Python reader yields an empty row for a blank line. -/
def csvParseLine (s : String) : List String :=
  if s.data.isEmpty then [] else csvAux 0 [] [] s.data

/-- Does a field need quoting under QUOTE_MINIMAL? (Contains the delimiter,
the quote character, or a line-terminator character.) -/
def fieldNeedsQuote (f : String) : Bool :=
  f.data.any (fun c => c == ',' || c == '"' || c == '\n' || c == '\r')

/-- Double every quote character, for quoted-field serialization. -/
def escQuotes : List Char → List Char
  | [] => []
  | c :: cs => if c == '"' then '"' :: '"' :: escQuotes cs else c :: escQuotes cs

/-- Serialize one field under QUOTE_MINIMAL. -/
def writeField (f : String) : List Char :=
  if fieldNeedsQuote f then '"' :: (escQuotes f.data ++ ['"']) else f.data

/-- Intercalate a comma between serialized fields. -/
def joinFields : List (List Char) → List Char
  | [] => []
  | [f] => f
  | f :: rest => f ++ ',' :: joinFields rest

/-- Serialize one row as the Python `csv.writer` does (QUOTE_MINIMAL; a row
consisting of a single empty field is written as a pair of quotes so that it
is not confused with a blank line). The line terminator is kept out of the
model; output is a list of lines. -/
def csvWriteRow (r : List String) : String :=
  if r = [""] then "\"\"" else ⟨joinFields (r.map writeField)⟩

/-! ### Decimal numbers: Python float(), modelled as exact scaled decimals -/

/-- Digit test. -/
def isDig (c : Char) : Bool := '0' ≤ c && c ≤ '9'

/-- Accumulate a digit string into a natural number. -/
def digsVal (acc : Nat) : List Char → Nat
  | [] => acc
  | c :: cs => digsVal (acc * 10 + (c.toNat - 48)) cs

/-- Parse the body of a decimal literal (after the optional sign):
`digits [. digits]` or `. digits`, with at least one digit in total.
Returns mantissa and number of decimal places. -/
def parseDecBody (cs : List Char) : Option (Nat × Nat) :=
  let ip := cs.takeWhile isDig
  let rest := cs.dropWhile isDig
  match rest with
  | [] => if ip.isEmpty then none else some (digsVal 0 ip, 0)
  | '.' :: r2 =>
    let fp := r2.takeWhile isDig
    let rest2 := r2.dropWhile isDig
    if rest2.isEmpty then
      if ip.isEmpty && fp.isEmpty then none
      else some (digsVal 0 (ip ++ fp), fp.length)
    else none
  | _ => none

/-- Python `float(s)` on the decimal strings appearing in these files:
optional surrounding whitespace, optional sign, plain decimal literal.
(Exponents, underscores, infinities and nan are outside the model.)
The result is an exact scaled decimal: value = mantissa / 10 ^ places. -/
def parseDec (s : String) : Option (Int × Nat) :=
  match (pyStrip s).data with
  | '-' :: r => (parseDecBody r).map (fun p => (-(p.1 : Int), p.2))
  | '+' :: r => (parseDecBody r).map (fun p => ((p.1 : Int), p.2))
  | r => (parseDecBody r).map (fun p => ((p.1 : Int), p.2))

/-- Decimal digits of a natural number (with fuel, structurally). -/
def natStrAux : Nat → Nat → List Char
  | 0, _ => []
  | fuel + 1, n =>
    if n < 10 then [Char.ofNat (48 + n)]
    else natStrAux fuel (n / 10) ++ [Char.ofNat (48 + n % 10)]

/-- Decimal representation of a natural number. -/
def natStr (n : Nat) : String := ⟨natStrAux (n + 1) n⟩

/-- Two-digit zero-padded representation of a value below 100. -/
def pad2 (n : Nat) : String := if n < 10 then "0" ++ natStr n else natStr n

/-- Round `num / den` to the nearest integer, ties to even (the rounding of
Python `format(x, '.2f')`). -/
def roundHalfEven (num den : Nat) : Nat :=
  let q := num / den
  let r := num % den
  if 2 * r < den then q
  else if 2 * r > den then q + 1
  else if q % 2 == 0 then q else q + 1

/-- Python `f"{value:.2f}"` on the scaled-decimal model of `value`. -/
def fmt2 (v : Int × Nat) : String :=
  let cents := roundHalfEven (v.1.natAbs * 100) (10 ^ v.2)
  let sign := if v.1 < 0 then "-" else ""
  sign ++ natStr (cents / 100) ++ "." ++ pad2 (cents % 100)

/-- Product of two scaled decimals (Python `price_float * net_shares_float`,
exact). -/
def mulDec (a b : Int × Nat) : Int × Nat := (a.1 * b.1, a.2 + b.2)

/-! ### Shared row machinery -/

/-- Python `list.insert(i, x)`: insert at position `i`, appending when `i`
is beyond the end. -/
def pyInsert (i : Nat) (x : α) (l : List α) : List α :=
  l.take i ++ x :: l.drop i

/-- Python `list.index(a)` / `'a' in l` combination: index of the first
occurrence, `none` when absent (Python raises ValueError there). -/
def findIdx (a : String) : List String → Option Nat
  | [] => none
  | x :: xs => if x == a then some 0 else (findIdx a xs).map (· + 1)

/-- Outcome of processing one data row. -/
inductive RowStep where
  | emit (r : List String)
  | skip
  | warnSkip (w : String)
  | abort
deriving DecidableEq

/-- Result of a row-processing loop: emitted rows, warnings printed to the
error stream, and whether an uncaught exception aborted the loop. -/
structure LoopOut where
  rows : List (List String)
  warns : List String
  aborted : Bool
deriving DecidableEq

/-- Run a per-row step over the data rows; an abort discards the remaining
rows (the exception propagates out of the row loop). -/
def runRowsW (step : List String → RowStep) : List (List String) → LoopOut
  | [] => ⟨[], [], false⟩
  | r :: rs =>
    match step r with
    | .emit e =>
      let out := runRowsW step rs
      ⟨e :: out.rows, out.warns, out.aborted⟩
    | .skip => runRowsW step rs
    | .warnSkip w =>
      let out := runRowsW step rs
      ⟨out.rows, w :: out.warns, out.aborted⟩
    | .abort => ⟨[], [], true⟩

/-- Observable result of one converter run: rows written to standard output,
error-stream lines, exit code. -/
structure ConvOut where
  rows : List (List String)
  err : List String
  exitCode : Nat
deriving DecidableEq

/-! ### Fidelity 401k / IRA converter (fidelity_401k_IRA_converter.py) -/

/-- Is a line recognized as a Fidelity transaction header? (line 25 of the
source: `stripped_line.startswith('Date,') or ...startswith('Run Date,')`). -/
def fidRecognizesHeader (s : String) : Bool :=
  startsWithS "Date," (pyStrip s) || startsWithS "Run Date," (pyStrip s)

/-- The preamble scanner of `process_fidelity_csv` (lines 14-32): skip blank
lines and unrecognized preamble before the header, collect lines from the
header on, stop at the first blank line after the header. The flag is the
`header_found` boolean. -/
def fidCapture : List String → Bool → List String
  | [], _ => []
  | l :: ls, found =>
    if pyStrip l == "" then
      if found then [] else fidCapture ls false
    else if found then l :: fidCapture ls true
    else if fidRecognizesHeader l then l :: fidCapture ls true
    else fidCapture ls false

/-- The standardized output header (line 46 of the source). -/
def fidStdHeader : List String :=
  ["Date", "Investment", "Transaction Type", "Shares", "Amount"]

/-- Trailing transformation of a surviving 401k row (lines 69-89):
transaction-type remapping chain, sign stripping, emission. -/
def fid401kFinish (date investment tt shares amount : String) : RowStep :=
  let tt1 := if tt = "Contributions" then "Buy" else tt
  let tt2 := if tt1 = "Exchange In" then "Buy" else tt1
  let tt3 := if tt2 = "Exchange Out" then "Sell" else tt2
  let tt4 := if tt3 = "RECORDKEEPING FEE" then "Fees" else tt3
  .emit [date, investment, tt4, lstripMinus shares, lstripMinus amount]

/-- One 401k data row (lines 51-89). A row of the wrong width is skipped;
`float(amount)` on a nonempty unparsable amount of a Transfers row raises
ValueError, which only the whole-file handler catches: abort. -/
def fid401kRow : List String → RowStep
  | [date, investment0, tt, shares, amount] =>
    let investment :=
      if investment0 = "VANG TARGET RET 2070" then "VSVNX" else investment0
    if tt = "Change in Market Value" then .skip
    else if (tt == "Transfers" || tt == "Transfer") && amount != "" then
      match parseDec amount with
      | none => .abort
      | some v =>
        if v.1 = 0 then .skip
        else fid401kFinish date investment tt shares amount
    else fid401kFinish date investment tt shares amount
  | _ => .skip

/-- One IRA data row (lines 93-116). -/
def fidIRARow (row : List String) : RowStep :=
  if row.length != 13 then .skip
  else
    match row[0]?, row[1]?, row[2]?, row[5]?, row[10]? with
    | some date, some action, some investment, some shares, some amount =>
      let tt :=
        if substrIn "REINVESTMENT" action then "Buy"
        else if substrIn "DIVIDEND RECEIVED" action then "Dividend"
        else action
      .emit [date, investment, tt, lstripMinus shares, lstripMinus amount]
    | _, _, _, _, _ => .skip

/-- The whole `process_fidelity_csv` run on the decoded lines of an existing
file. Note the standardized header is written (line 46) before the format
detection (lines 49, 91, 117), so the unsupported-format abort happens with
the header row already on standard output. -/
def process_fidelity_csv (lines : List String) : ConvOut :=
  match fidCapture lines false with
  | [] => ⟨[], ["Error: No data found in file."], 1⟩
  | hl :: rest =>
    let header := csvParseLine hl
    let rows := rest.map csvParseLine
    if header[0]? == some "Date" && header.length == 5 then
      let out := runRowsW fid401kRow rows
      ⟨fidStdHeader :: out.rows,
       out.warns ++ (if out.aborted then ["An error occurred"] else []),
       if out.aborted then 1 else 0⟩
    else if header[0]? == some "Run Date" && header.length == 13 then
      let out := runRowsW fidIRARow rows
      ⟨fidStdHeader :: out.rows,
       out.warns ++ (if out.aborted then ["An error occurred"] else []),
       if out.aborted then 1 else 0⟩
    else
      ⟨[fidStdHeader], ["Error: Unsupported CSV format."], 1⟩

/-! ### Morgan Stanley GSU converter (morgan_stanley_gsu_converter.py) -/

/-- One data row of a Releases report (`process_releases_report`,
lines 30-61): clean and parse Price (warn-and-skip on failure), remap the
Type, parse Net Share Proceeds (warn-and-skip on failure), insert the GOOG
symbol after Order Number and the two-decimal Value after Net Share
Proceeds. An out-of-range index is the uncaught IndexError: abort. -/
def msRelRow (priceIdx typeIdx orderIdx netIdx : Nat) (row : List String) :
    RowStep :=
  match row[priceIdx]? with
  | none => .abort
  | some priceRaw =>
    let priceStr := removeChar '$' priceRaw
    match parseDec priceStr with
    | none =>
      .warnSkip ("Warning: Could not parse price in Releases row: " ++
        joinComma row ++ ". Skipping.")
    | some p =>
      let row1 := row.set priceIdx priceStr
      match row1[typeIdx]? with
      | none => .abort
      | some ty =>
        let row2 := if ty = "Release" then row1.set typeIdx "Buy" else row1
        match row2[netIdx]? with
        | none => .abort
        | some ns =>
          match parseDec ns with
          | none =>
            .warnSkip
              ("Warning: Could not parse Net Share Proceeds in Releases row: "
                ++ joinComma row ++ ". Skipping.")
          | some n =>
            let row3 := pyInsert (orderIdx + 1) "GOOG" row2
            .emit (pyInsert (netIdx + 2) (fmt2 (mulDec p n)) row3)

/-- One data row of a Withdrawals report (`process_withdrawals_report`,
lines 79-97): skip the boilerplate footer, remap Sale to Sell, strip the
minus from Quantity and the currency punctuation from Net Amount, insert
the GOOG symbol after Order Number. No field-count check is performed. -/
def msWdRow (typeIdx orderIdx qtyIdx netIdx : Nat) (row : List String) :
    RowStep :=
  if (match row[0]? with
      | some f => startsWithS "Please note that" f
      | none => false) then .skip
  else
    match row[typeIdx]? with
    | none => .abort
    | some ty =>
      let row1 := if ty = "Sale" then row.set typeIdx "Sell" else row
      match row1[qtyIdx]? with
      | none => .abort
      | some q =>
        let row2 := row1.set qtyIdx (removeChar '-' q)
        match row2[netIdx]? with
        | none => .abort
        | some na =>
          let row3 := row2.set netIdx (removeChar ',' (removeChar '$' na))
          .emit (pyInsert (orderIdx + 1) "GOOG" row3)

/-- The Releases header with Symbol and Value inserted (lines 25-26). -/
def msRelHeader (orderIdx netIdx : Nat) (header : List String) :
    List String :=
  pyInsert (netIdx + 2) "Value" (pyInsert (orderIdx + 1) "Symbol" header)

/-- The whole `process_morgan_stanley_report` run. The first record is the
header; a missing required column raises ValueError from `list.index`,
caught at line 126: abort before anything is written. -/
def process_morgan_stanley_report (lines : List String) : ConvOut :=
  match lines with
  | [] => ⟨[], ["An unexpected error occurred"], 1⟩
  | hl :: rest =>
    let header := csvParseLine hl
    let rows := rest.map csvParseLine
    if header.contains "Vest Date" then
      match findIdx "Price" header, findIdx "Type" header,
          findIdx "Order Number" header,
          findIdx "Net Share Proceeds" header with
      | some priceIdx, some typeIdx, some orderIdx, some netIdx =>
        let out := runRowsW (msRelRow priceIdx typeIdx orderIdx netIdx) rows
        ⟨msRelHeader orderIdx netIdx header :: out.rows,
         out.warns ++ (if out.aborted then ["An unexpected error occurred"]
                       else []),
         if out.aborted then 1 else 0⟩
      | _, _, _, _ =>
        ⟨[], ["Error: A required column was not found in the CSV header."], 1⟩
    else if header.contains "Execution Date" then
      match findIdx "Type" header, findIdx "Order Number" header,
          findIdx "Quantity" header, findIdx "Net Amount" header with
      | some typeIdx, some orderIdx, some qtyIdx, some netIdx =>
        let out := runRowsW (msWdRow typeIdx orderIdx qtyIdx netIdx) rows
        ⟨pyInsert (orderIdx + 1) "Symbol" header :: out.rows,
         out.warns ++ (if out.aborted then ["An unexpected error occurred"]
                       else []),
         if out.aborted then 1 else 0⟩
      | _, _, _, _ =>
        ⟨[], ["Error: A required column was not found in the CSV header."], 1⟩
    else
      ⟨[], ["Error: Unknown report type."], 1⟩

/-! ### Vanguard 401k / Roth IRA converter (vanguard_401k_IRA_converter.py) -/

/-- The header scanner of `convert_vanguard_401k_csv` (lines 19-25): first
line whose stripped form starts with the header marker, together with the
remaining lines. -/
def vgFindHeader : List String → Option (String × List String)
  | [] => none
  | l :: ls =>
    if startsWithS "Account Number,Trade Date" (pyStrip l) then some (l, ls)
    else vgFindHeader ls

/-- The tail of the Vanguard 401k row transformation (lines 74-136), after
the filters have let the row through: compute the Type value, insert it
after Transaction Description, remap investment names, clean monetary
fields. All `header.index` lookups are made in the already-mutated output
header `hdr2`, exactly as the source does inside the row loop. -/
def vg401kFinish (hdr2 : List String) (is401k isRoth : Bool)
    (sharesCol amountCol : String) (descIdx : Nat) (row : List String)
    (tdesc : String) : RowStep :=
  let type0 := tdesc
  let type1 :=
    if is401k && startsWithS "Miscellaneous Credits" tdesc then
      match findIdx sharesCol hdr2 with
      | none => type0
      | some sIdx =>
        match row[sIdx]? with
        | none => type0
        | some sv =>
          match parseDec sv with
          | none => type0
          | some v =>
            if v.1 < 0 then "Sell" else if v.1 > 0 then "Buy" else type0
    else type0
  let type2 :=
    if is401k then
      if type1 = "Plan Contribution" then "Buy"
      else if type1 = "Fee" then "Fees"
      else if type1 = "Fund to Fund Out" then "Sell"
      else if type1 = "Fund to Fund In" then "Buy"
      else type1
    else if isRoth then
      if type1 = "Dividend Reinvestment" then "Buy"
      else if type1 = "Dividend Received" then "Dividend"
      else if type1 = "Rollover Conversion" then "Buy"
      else type1
    else type1
  let row2 := pyInsert (descIdx + 1) type2 row
  match findIdx "Investment Name" hdr2 with
  | none => .abort
  | some invIdx =>
    match row2[invIdx]? with
    | none => .abort
    | some inv =>
      let row3 :=
        if inv = "Target Retire 2050 Tr" then
          row2.set invIdx "Vanguard Target Retirement 2050 Trust"
        else if inv = "Tgt Retire 2070 Trust" then
          row2.set invIdx "Vanguard Target Retirement 2070 Trust"
        else row2
      match findIdx "Share Price" hdr2 with
      | none => .abort
      | some priceIdx =>
        match findIdx amountCol hdr2 with
        | none => .abort
        | some amountIdx =>
          let row4 :=
            match row3[priceIdx]? with
            | some pv =>
              if pv ≠ "" then row3.set priceIdx (removeChar '$' pv) else row3
            | none => row3
          let row5 :=
            match row4[amountIdx]? with
            | some av =>
              if av ≠ "" then
                row4.set amountIdx
                  (if isRoth then removeChar '-' (removeChar '$' av)
                   else removeChar '$' av)
              else row4
            | none => row4
          let row6 :=
            if isRoth && hdr2.contains "Net Amount" then
              match findIdx "Net Amount" hdr2 with
              | some naIdx =>
                match row5[naIdx]? with
                | some nv =>
                  if nv ≠ "" then row5.set naIdx (removeChar '-' nv) else row5
                | none => row5
              | none => row5
            else row5
          .emit row6

/-- The generic Fee filter (line 71) followed by the finish stage: a Fee
row with a blank Share Price field is skipped; the Share Price lookup only
happens (and can only raise) when the description equals Fee. -/
def vg401kAfterFilters (hdr2 : List String) (is401k isRoth : Bool)
    (sharesCol amountCol : String) (descIdx : Nat) (row : List String)
    (tdesc : String) : RowStep :=
  if tdesc = "Fee" then
    match findIdx "Share Price" hdr2 with
    | none => .abort
    | some pIdx =>
      match row[pIdx]? with
      | none => .abort
      | some pv =>
        if pyStrip pv == "" then .skip
        else vg401kFinish hdr2 is401k isRoth sharesCol amountCol descIdx
          row tdesc
  else vg401kFinish hdr2 is401k isRoth sharesCol amountCol descIdx row tdesc

/-- One Vanguard 401k / Roth IRA data row (lines 53-136 of the source):
read the Transaction Description, apply the per-format filters (the
`float` in the Miscellaneous Credits zero filter, line 64, is unguarded:
an unparsable shares field there raises and aborts the file), then the
generic Fee filter and the finish stage. -/
def vg401kRow (hdr2 : List String) (is401k isRoth : Bool)
    (sharesCol amountCol : String) (descIdx : Nat) (row : List String) :
    RowStep :=
  match findIdx "Transaction Description" hdr2 with
  | none => .abort
  | some dIdx =>
    match row[dIdx]? with
    | none => .abort
    | some tdesc =>
      if is401k && substrIn "Source to Source/Fund to Fund Transfer" tdesc
      then .skip
      else if is401k && startsWithS "Miscellaneous Credits" tdesc then
        match findIdx sharesCol hdr2 with
        | none => .abort
        | some sIdx =>
          match row[sIdx]? with
          | none => .abort
          | some sv =>
            match parseDec sv with
            | none => .abort
            | some v =>
              if v.1 = 0 then .skip
              else vg401kAfterFilters hdr2 is401k isRoth sharesCol amountCol
                descIdx row tdesc
      else if isRoth && !is401k && substrIn "Sweep" tdesc then .skip
      else vg401kAfterFilters hdr2 is401k isRoth sharesCol amountCol descIdx
        row tdesc

/-- The data-row loop of `convert_vanguard_401k_csv` (lines 53-136):
stops at the first empty row, aborts on an uncaught exception. -/
def vgLoop (step : List String → RowStep) :
    List (List String) → List (List String) × Bool
  | [] => ([], false)
  | r :: rs =>
    if r = [] then ([], false)
    else
      match step r with
      | .emit e =>
        let out := vgLoop step rs
        (e :: out.1, out.2)
      | .skip => vgLoop step rs
      | .warnSkip _ => vgLoop step rs
      | .abort => ([], true)

/-- The whole `convert_vanguard_401k_csv` run on the decoded lines of an
existing file. `.ok rows` is the returned CSV content (header plus data
rows); `.error` is an uncaught exception, after which nothing reaches
standard output. A file without the header marker returns empty content
with no error. -/
def convert_vanguard_401k_csv (lines : List String) :
    Except String (List (List String)) :=
  match vgFindHeader lines with
  | none => .ok []
  | some (hl, rest) =>
    let header := (splitOnChar ',' (pyStrip hl)).map pyStrip
    let is401k := header.contains "Dollar Amount"
    let isRoth := header.contains "Principal Amount"
    if !is401k && !isRoth then
      .error "Unsupported CSV format: missing amount column"
    else
      let sharesCol := if is401k then "Transaction Shares" else "Shares"
      let amountCol := if is401k then "Dollar Amount" else "Principal Amount"
      match findIdx "Transaction Description" header with
      | none => .error "Transaction Description is not in the header"
      | some descIdx =>
        let hdr2 := pyInsert (descIdx + 1) "Type" header
        let rows := rest.map csvParseLine
        let out := vgLoop
          (vg401kRow hdr2 is401k isRoth sharesCol amountCol descIdx) rows
        if out.2 then .error "row processing error" else .ok (hdr2 :: out.1)

/-! ### Vanguard brokerage converter (vanguard_brokerage_converter.py) -/

/-- The transaction-type remapping table (`conversion_rules`, lines
114-129), an ordered list of prefix/replacement pairs. -/
def conversion_rules : List (String × String) :=
  [("capital gain", "Interest"),
   ("reinvestment", "Buy"),
   ("sweep in", "Buy"),
   ("sweep out", "Sell"),
   ("corp action (redemption)", "Sell"),
   ("corp action (merger)", "Sell"),
   ("wire in", "Deposit"),
   ("funds received", "Deposit"),
   ("sell (exchange)", "Sell"),
   ("buy (exchange)", "Buy"),
   ("conversion (incoming)", "Deposit"),
   ("transfer (incoming)", "Deposit"),
   ("transfer (outgoing)", "Removal"),
   ("withdrawal", "Removal")]

/-- First-matching-prefix lookup against the lowered, stripped key. -/
def applyRulesAux (key orig : String) : List (String × String) → String
  | [] => orig
  | (p, r) :: rest => if startsWithS p key then r else applyRulesAux key orig rest

/-- `apply_conversion_rules` (lines 8-18). -/
def apply_conversion_rules (tt : String) (rules : List (String × String)) :
    String :=
  applyRulesAux (lowerS (pyStrip tt)) tt rules

/-- The header scanner of `process_vanguard_csv` (lines 32-37): first line
containing the transaction-section marker, with the remaining lines. -/
def vbFindHeader : List String → Option (String × List String)
  | [] => none
  | l :: ls =>
    if substrIn "Account Number,Trade Date,Settlement Date" l then
      some (l, ls)
    else vbFindHeader ls

/-- The data lines of the transaction section (lines 58-63): stripped lines
up to the first blank line or next section header. -/
def vbTakeRows : List String → List String
  | [] => []
  | l :: ls =>
    let t := pyStrip l
    if t == "" || startsWithS "Account Number," t then []
    else t :: vbTakeRows ls

/-- One brokerage data row (lines 73-100): sweep rows get a positive
principal copied into the shares column, reinvestment rows get their
principal sign stripped, and the transaction type goes through the rule
table. A missing column (`none` index, the -1 sentinel of the source) or a
short row leaves the row untouched at each guarded step. -/
def vbRow (ttIdx paIdx shIdx : Option Nat) (row : List String) :
    List String :=
  match ttIdx with
  | none => row
  | some tIdx =>
    match row[tIdx]? with
    | none => row
    | some tt0 =>
      let key := lowerS (pyStrip tt0)
      let row1 :=
        if startsWithS "sweep in" key || startsWithS "sweep out" key then
          match paIdx with
          | none => row
          | some pIdx =>
            match row[pIdx]? with
            | none => row
            | some pam =>
              let pos := stripLeadMinus pam
              let rowA := row.set pIdx pos
              match shIdx with
              | none => rowA
              | some sIdx =>
                if sIdx < rowA.length then rowA.set sIdx pos else rowA
        else if startsWithS "reinvestment" key then
          match paIdx with
          | none => row
          | some pIdx =>
            match row[pIdx]? with
            | none => row
            | some pam =>
              if startsWithS "-" pam then row.set pIdx (stripLeadMinus pam)
              else row
        else row
      match row1[tIdx]? with
      | none => row1
      | some cur => row1.set tIdx (apply_conversion_rules cur conversion_rules)

/-- Observable result of a `process_vanguard_csv` run: lines written to
standard output (the raw header line, then one comma-joined line per data
row), error-stream lines, exit code. -/
structure VBOut where
  out : List String
  err : List String
  exitCode : Nat
deriving DecidableEq

/-- The whole `process_vanguard_csv` run on the decoded lines of an
existing file, with the global `conversion_rules`. When the transaction
header is missing the function prints to the error stream and returns
normally: the process exit code is 0. -/
def process_vanguard_csv (lines : List String) : VBOut :=
  match vbFindHeader lines with
  | none => ⟨[], ["Brokerage transaction data not found"], 0⟩
  | some (hl, rest) =>
    let headerLine := pyStrip hl
    let header := csvParseLine headerLine
    let ttIdx := findIdx "Transaction Type" header
    let paIdx := findIdx "Principal Amount" header
    let shIdx := findIdx "Shares" header
    let outRows := (vbTakeRows rest).map
      (fun l => joinComma (vbRow ttIdx paIdx shIdx (csvParseLine l)))
    ⟨headerLine :: outRows, [], 0⟩

/-! ### Helper lemmas -/

theorem pyInsert_zero (x : α) (l : List α) : pyInsert 0 x l = x :: l := by
  simp [pyInsert]

theorem pyInsert_succ_cons (i : Nat) (x a : α) (l : List α) :
    pyInsert (i + 1) x (a :: l) = a :: pyInsert i x l := by
  simp [pyInsert]

theorem pyInsert_length (i : Nat) (x : α) (l : List α) :
    (pyInsert i x l).length = l.length + 1 := by
  simp [pyInsert]
  omega

/-- The inserted element sits at the insertion position (when it is within
the list, as Python guarantees for in-range positions). -/
theorem pyInsert_getElem_self :
    ∀ (l : List α) (i : Nat) (x : α), i ≤ l.length →
      (pyInsert i x l)[i]? = some x := by
  intro l i
  induction i generalizing l with
  | zero => intro x _; simp [pyInsert_zero]
  | succ n ih =>
    intro x h
    cases l with
    | nil => simp at h
    | cons a as =>
      rw [pyInsert_succ_cons]
      simpa using ih as x (by simpa using h)

/-- Positions before the insertion point are unchanged. -/
theorem pyInsert_getElem_lt :
    ∀ (l : List α) (i j : Nat) (x : α), j < i → i ≤ l.length →
      (pyInsert i x l)[j]? = l[j]? := by
  intro l i
  induction i generalizing l with
  | zero => intro j x h; omega
  | succ n ih =>
    intro j x hj hi
    cases l with
    | nil => simp at hi
    | cons a as =>
      rw [pyInsert_succ_cons]
      cases j with
      | zero => simp
      | succ m =>
        simpa using ih as m x (by omega) (by simpa using hi)

/-- Positions from the insertion point on are shifted up by one. -/
theorem pyInsert_getElem_succ :
    ∀ (l : List α) (i j : Nat) (x : α), i ≤ j → i ≤ l.length →
      (pyInsert i x l)[j + 1]? = l[j]? := by
  intro l i
  induction i generalizing l with
  | zero =>
    intro j x _ _
    simp [pyInsert_zero]
  | succ n ih =>
    intro j x hj hi
    cases l with
    | nil => simp at hi
    | cons a as =>
      rw [pyInsert_succ_cons]
      cases j with
      | zero => omega
      | succ m =>
        simpa using ih as m x (by omega) (by simpa using hi)

/-- `findIdx` really points at the sought element. -/
theorem findIdx_getElem :
    ∀ (l : List String) (a : String) (i : Nat), findIdx a l = some i →
      l[i]? = some a := by
  intro l
  induction l with
  | nil => intro a i h; simp [findIdx] at h
  | cons x xs ih =>
    intro a i h
    by_cases hx : x = a
    · subst hx
      simp [findIdx] at h
      subst h
      simp
    · simp [findIdx, hx] at h
      obtain ⟨m, hm, hmi⟩ := h
      subst hmi
      simpa using ih a m hm

/-- `findIdx` fails on absent names (the `in header` test of the source
agrees with its `header.index`). -/
theorem findIdx_eq_none :
    ∀ (l : List String) (a : String), a ∉ l → findIdx a l = none
  | [], _, _ => rfl
  | x :: xs, a, h => by
    have hx : ¬ x = a := fun e => h (e ▸ List.mem_cons_self x xs)
    simp [findIdx, hx,
      findIdx_eq_none xs a (fun hm => h (List.mem_cons_of_mem x hm))]

/-- A string that does not start with a minus sign is untouched by
`lstrip('-')`. -/
theorem lstripMinus_of_not_minus (s : String)
    (h : startsWithS "-" s = false) : lstripMinus s = s := by
  cases s with
  | mk data =>
    cases data with
    | nil => rfl
    | cons c cs =>
      have hc : (c == '-') = false := by
        simpa [startsWithS, List.isPrefixOf, BEq.comm] using h
      simp [lstripMinus, List.dropWhile_cons, hc]

/-- `lstrip('-')` is idempotent on every string. -/
theorem lstripMinus_idem (s : String) :
    lstripMinus (lstripMinus s) = lstripMinus s := by
  cases s with
  | mk data => simp [lstripMinus, List.dropWhile_idempotent]

/-- A string that does not start with a minus sign is untouched by the
brokerage single-character strip. -/
theorem stripLeadMinus_of_not_minus (s : String)
    (h : startsWithS "-" s = false) : stripLeadMinus s = s := by
  simp [stripLeadMinus, h]

/-! ### Claim theorems -/

/-- C7: the Fidelity 401k input row
`2024-01-15,VANG TARGET RET 2070,Contributions,-2.5,-500.00` under the
5-column `Date,...` header produces exactly the standardized header and the
output row `2024-01-15,VSVNX,Buy,2.5,500.00`: the investment name is
remapped, Contributions becomes Buy, and the negative signs are stripped
from the shares and amount fields. -/
theorem C7_fidelity_401k_scenario :
    process_fidelity_csv
      ["Date,Investment,Transaction Type,Shares,Amount",
       "2024-01-15,VANG TARGET RET 2070,Contributions,-2.5,-500.00"] =
      ⟨[["Date", "Investment", "Transaction Type", "Shares", "Amount"],
        ["2024-01-15", "VSVNX", "Buy", "2.5", "500.00"]], [], 0⟩ ∧
    csvWriteRow ["2024-01-15", "VSVNX", "Buy", "2.5", "500.00"] =
      "2024-01-15,VSVNX,Buy,2.5,500.00" := by
  exact ⟨by decide, by decide⟩

/-- C10 counterexample: the sign stripping of the Vanguard brokerage
converter (drop one leading minus) applied twice differs from applying it
once on the input string `--100.00`, so "applying the stripping twice
equals applying it once for every input string" fails for that converter's
normalization. -/
theorem C10_counterexample :
    ¬ (stripLeadMinus (stripLeadMinus "--100.00") =
        stripLeadMinus "--100.00") := by
  decide

/-- C10 (amended): on every string with no leading minus sign, both
sign-stripping normalizations (the Fidelity `lstrip('-')` and the brokerage
drop-one-leading-minus) are the identity; `lstrip('-')` applied twice
equals applying it once on every string, while the brokerage strip applied
twice equals applying it once only for strings that do not begin with two
minus signs. -/
theorem C10_amended (s : String) :
    (startsWithS "-" s = false →
      lstripMinus s = s ∧ stripLeadMinus s = s) ∧
    lstripMinus (lstripMinus s) = lstripMinus s ∧
    (startsWithS "--" s = false →
      stripLeadMinus (stripLeadMinus s) = stripLeadMinus s) := by
  refine ⟨fun h => ⟨lstripMinus_of_not_minus s h,
    stripLeadMinus_of_not_minus s h⟩, lstripMinus_idem s, fun h2 => ?_⟩
  by_cases h1 : startsWithS "-" s = true
  · cases s with
    | mk data =>
      cases data with
      | nil => simp [startsWithS, List.isPrefixOf] at h1
      | cons c cs =>
        have hc : c = '-' := by
          have := h1
          simp [startsWithS, List.isPrefixOf] at this
          exact this.symm
        subst hc
        have hcs : startsWithS "-" ⟨cs⟩ = false := by
          simpa [startsWithS, List.isPrefixOf] using h2
        have hstep : stripLeadMinus ⟨'-' :: cs⟩ = ⟨cs⟩ := by
          simp [stripLeadMinus, startsWithS, List.isPrefixOf]
        rw [hstep, stripLeadMinus_of_not_minus _ hcs]
  · rw [stripLeadMinus_of_not_minus s (by simpa using h1),
      stripLeadMinus_of_not_minus s (by simpa using h1)]

/-- C10 witness: the amended statement applied at the concrete strings
`5.00` (unsigned) and `-5.00` (single sign). -/
theorem C10_witness :
    (lstripMinus "5.00" = "5.00" ∧ stripLeadMinus "5.00" = "5.00") ∧
    stripLeadMinus (stripLeadMinus "-5.00") = stripLeadMinus "-5.00" := by
  exact ⟨(C10_amended "5.00").1 (by decide),
    (C10_amended "-5.00").2.2 (by decide)⟩

/-- C6: evaluating `convert_vanguard_401k_csv` on a Vanguard 401k file in
the real column order (Transaction Shares after Transaction Description)
shows the converter emitting Type `Sell` for a Miscellaneous Credits row
whose source shares value `2.5` is strictly positive: because the `Type`
column is inserted into the header before the rows are processed, the
`header.index` lookup used for the sign inspection is shifted one column to
the right, and the converter inspects the Dollar Amount field `-5.00`
instead of the Transaction Shares field. -/
theorem C6_shares_sign_bug :
    convert_vanguard_401k_csv
      ["Account Number,Trade Date,Transaction Description,Investment Name,Share Price,Transaction Shares,Dollar Amount",
       "A1,01/02/2024,Miscellaneous Credits,FundX,10.00,2.5,-5.00"] =
      .ok [["Account Number", "Trade Date", "Transaction Description",
            "Type", "Investment Name", "Share Price", "Transaction Shares",
            "Dollar Amount"],
           ["A1", "01/02/2024", "Miscellaneous Credits", "Sell", "FundX",
            "10.00", "2.5", "-5.00"]] ∧
    (csvParseLine
        "A1,01/02/2024,Miscellaneous Credits,FundX,10.00,2.5,-5.00")[5]? =
      some "2.5" ∧
    parseDec "2.5" = some (25, 1) ∧ (0 : Int) < 25 := by
  exact ⟨by rfl, by decide, by decide, by decide⟩

/-- Consuming comma-free field characters inside an unquoted field extends
the current field and leaves the parser in the unquoted state. -/
theorem csvAux_state1_consume :
    ∀ (f : List Char) (pre : List Char) (acc : List String)
      (rest : List Char), (∀ c ∈ f, (c == ',') = false) →
      csvAux 1 pre acc (f ++ rest) = csvAux 1 (pre ++ f) acc rest := by
  intro f
  induction f with
  | nil => intro pre acc rest _; simp
  | cons c cs ih =>
    intro pre acc rest h
    have hc : (c == ',') = false := h c (List.mem_cons_self c cs)
    simp only [List.cons_append, csvAux, hc]
    simpa [List.append_assoc] using
      ih (pre ++ [c]) acc rest (fun x hx => h x (List.mem_cons_of_mem c hx))

/-- Consuming the quote-escaped serialization of a field inside a quoted
field, up to and including the closing quote, accumulates exactly the field
and leaves the parser in the after-quote state. -/
theorem csvAux_state2_consume :
    ∀ (f : List Char) (pre : List Char) (acc : List String)
      (rest : List Char),
      csvAux 2 pre acc (escQuotes f ++ '"' :: rest) =
        csvAux 3 (pre ++ f) acc rest := by
  intro f
  induction f with
  | nil => intro pre acc rest; simp [escQuotes, csvAux]
  | cons c cs ih =>
    intro pre acc rest
    by_cases hc : c = '"'
    · subst hc
      simp only [escQuotes, if_pos rfl, List.cons_append, csvAux]
      simp only [beq_self_eq_true, if_pos rfl]
      simpa [List.append_assoc] using ih (pre ++ ['"']) acc rest
    · have hcb : (c == '"') = false := by simpa using hc
      simp only [escQuotes, if_neg (by simpa using hc), List.cons_append,
        csvAux, hcb]
      simpa [List.append_assoc] using ih (pre ++ [c]) acc rest

/-- Parsing one serialized field followed by a comma emits exactly that
field and returns to the field-start state. -/
theorem csvAux_field_comma (f : String) (acc : List String)
    (rest : List Char) :
    csvAux 0 [] acc (writeField f ++ ',' :: rest) =
      csvAux 0 [] (acc ++ [f]) rest := by
  by_cases hq : fieldNeedsQuote f = true
  · rw [writeField, if_pos hq]
    have h1 : ('"' :: (escQuotes f.data ++ ['"'])) ++ ',' :: rest
        = '"' :: (escQuotes f.data ++ '"' :: ',' :: rest) := by simp
    rw [h1]
    have h2 : csvAux 0 [] acc ('"' :: (escQuotes f.data ++ '"' :: ',' :: rest))
        = csvAux 2 [] acc (escQuotes f.data ++ '"' :: ',' :: rest) := by
      simp [csvAux]
    rw [h2, csvAux_state2_consume f.data [] acc (',' :: rest)]
    have h3 : csvAux 3 ([] ++ f.data) acc (',' :: rest)
        = csvAux 0 [] (acc ++ [(⟨f.data⟩ : String)]) rest := by
      simp [csvAux]
    rw [h3]
  · have hq2 : fieldNeedsQuote f = false := by simpa using hq
    rw [writeField, if_neg hq]
    have hall : ∀ c ∈ f.data, (c == ',') = false ∧ (c == '"') = false := by
      intro c hc
      have h0 : f.data.any
          (fun c => c == ',' || c == '"' || c == '\n' || c == '\r') = false :=
        hq2
      have h2 := (List.any_eq_false.mp h0) c hc
      constructor
      · cases h3 : (c == ',') with
        | false => rfl
        | true => exact absurd (by simp [h3]) h2
      · cases h3 : (c == '"') with
        | false => rfl
        | true => exact absurd (by simp [h3]) h2
    cases hd : f.data with
    | nil =>
      have hf : f = "" := by
        cases f with
        | mk d =>
          simp at hd
          subst hd
          rfl
      subst hf
      simp [csvAux]
    | cons c cs =>
      have hc := hall c (by rw [hd]; exact List.mem_cons_self c cs)
      rw [List.cons_append]
      have h2 : csvAux 0 [] acc (c :: (cs ++ ',' :: rest))
          = csvAux 1 [c] acc (cs ++ ',' :: rest) := by
        simp [csvAux, hc.1, hc.2]
      rw [h2, csvAux_state1_consume cs [c] acc (',' :: rest)
        (fun x hx => (hall x (by rw [hd]; exact List.mem_cons_of_mem c hx)).1)]
      have e2 : [c] ++ cs = f.data := by rw [hd]; rfl
      rw [e2]
      have h3 : csvAux 1 f.data acc (',' :: rest)
          = csvAux 0 [] (acc ++ [(⟨f.data⟩ : String)]) rest := by
        simp [csvAux]
      rw [h3]

/-- Parsing one serialized field at the end of the record emits exactly
that field. -/
theorem csvAux_field_end (f : String) (acc : List String) :
    csvAux 0 [] acc (writeField f) = acc ++ [f] := by
  by_cases hq : fieldNeedsQuote f = true
  · rw [writeField, if_pos hq]
    have h1 : ('"' :: (escQuotes f.data ++ ['"']))
        = '"' :: (escQuotes f.data ++ '"' :: ([] : List Char)) := by simp
    rw [h1]
    have h2 : csvAux 0 [] acc ('"' :: (escQuotes f.data ++ '"' :: []))
        = csvAux 2 [] acc (escQuotes f.data ++ '"' :: []) := by
      simp [csvAux]
    rw [h2, csvAux_state2_consume f.data [] acc []]
    have h3 : csvAux 3 ([] ++ f.data) acc []
        = acc ++ [(⟨f.data⟩ : String)] := by
      simp [csvAux]
    rw [h3]
  · have hq2 : fieldNeedsQuote f = false := by simpa using hq
    rw [writeField, if_neg hq]
    have hall : ∀ c ∈ f.data, (c == ',') = false ∧ (c == '"') = false := by
      intro c hc
      have h0 : f.data.any
          (fun c => c == ',' || c == '"' || c == '\n' || c == '\r') = false :=
        hq2
      have h2 := (List.any_eq_false.mp h0) c hc
      constructor
      · cases h3 : (c == ',') with
        | false => rfl
        | true => exact absurd (by simp [h3]) h2
      · cases h3 : (c == '"') with
        | false => rfl
        | true => exact absurd (by simp [h3]) h2
    cases hd : f.data with
    | nil =>
      have hf : f = "" := by
        cases f with
        | mk d =>
          simp at hd
          subst hd
          rfl
      subst hf
      simp [csvAux]
    | cons c cs =>
      have hc := hall c (by rw [hd]; exact List.mem_cons_self c cs)
      have h2 : csvAux 0 [] acc (c :: cs)
          = csvAux 1 [c] acc cs := by
        simp [csvAux, hc.1, hc.2]
      have hcs := csvAux_state1_consume cs [c] acc []
        (fun x hx => (hall x (by rw [hd]; exact List.mem_cons_of_mem c hx)).1)
      rw [List.append_nil] at hcs
      rw [h2, hcs]
      have e2 : [c] ++ cs = f.data := by rw [hd]; rfl
      rw [e2]
      have h3 : csvAux 1 f.data acc [] = acc ++ [(⟨f.data⟩ : String)] := by
        simp [csvAux]
      rw [h3]

/-- Parsing a whole serialized record from the field-start state yields the
original fields appended to the accumulator. -/
theorem csvAux_joinFields :
    ∀ (r : List String) (acc : List String), r ≠ [] →
      csvAux 0 [] acc (joinFields (r.map writeField)) = acc ++ r := by
  intro r
  induction r with
  | nil => intro acc h; exact absurd rfl h
  | cons f t ih =>
    intro acc _
    cases t with
    | nil => simpa [joinFields] using csvAux_field_end f acc
    | cons g u =>
      simp only [List.map_cons, joinFields]
      rw [csvAux_field_comma f acc
        (joinFields (writeField g :: u.map writeField))]
      have := ih (acc ++ [f]) (by simp)
      simp only [List.map_cons] at this
      rw [this]
      simp

/-- C9 counterexample: the Vanguard brokerage converter emits rows by plain
comma-join without quote-escaping (line 103 of the source), so a row whose
Transaction Type field contains a comma is serialized to a line that parses
back to five fields instead of the row's four: the emitted line does not
round-trip. -/
theorem C9_counterexample :
    (process_vanguard_csv
      ["Account Number,Trade Date,Settlement Date,Transaction Type",
       "1,2,3,\"Div, special\""]).out =
      ["Account Number,Trade Date,Settlement Date,Transaction Type",
       "1,2,3,Div, special"] ∧
    vbRow (some 3) none none (csvParseLine "1,2,3,\"Div, special\"") =
      ["1", "2", "3", "Div, special"] ∧
    csvParseLine "1,2,3,Div, special" ≠ ["1", "2", "3", "Div, special"] := by
  exact ⟨by decide, by decide, by decide⟩

/-- C9 (amended): every nonempty row serialized through the csv-writer
emitter (used by the Fidelity, Morgan Stanley and Vanguard 401k
converters) parses back to exactly the row's fields, including fields
containing commas or double quotes; the Vanguard brokerage converter
instead joins fields with plain commas, so its output lines do not
round-trip when a field contains a comma or a quote. -/
theorem C9_amended (r : List String) (h : r ≠ []) :
    csvParseLine (csvWriteRow r) = r := by
  by_cases hs : r = [""]
  · subst hs
    decide
  · rw [csvWriteRow, if_neg hs]
    have hne : joinFields (r.map writeField) ≠ [] := by
      cases r with
      | nil => exact absurd rfl h
      | cons f t =>
        cases t with
        | nil =>
          simp only [List.map_cons, List.map_nil, joinFields]
          by_cases hq : fieldNeedsQuote f = true
          · rw [writeField, if_pos hq]
            simp
          · rw [writeField, if_neg hq]
            intro hdata
            apply hs
            have : f = "" := by
              cases f with
              | mk d =>
                simp at hdata
                subst hdata
                rfl
            rw [this]
        | cons g u =>
          simp only [List.map_cons, joinFields]
          simp
    have hdat : (⟨joinFields (r.map writeField)⟩ : String).data
        = joinFields (r.map writeField) := rfl
    rw [csvParseLine, hdat, if_neg (by simpa [List.isEmpty_iff] using hne)]
    simpa using csvAux_joinFields r [] h

/-- C9 witness: the amended round-trip applied to a concrete row containing
a comma, a double quote and an empty field. -/
theorem C9_witness :
    csvParseLine (csvWriteRow ["a,b", "c\"d", "", "plain"]) =
      ["a,b", "c\"d", "", "plain"] :=
  C9_amended ["a,b", "c\"d", "", "plain"] (by decide)

/-- An index returned by `findIdx` is within the list. -/
theorem findIdx_lt_length (l : List String) (a : String) (i : Nat)
    (h : findIdx a l = some i) : i < l.length := by
  have hg := findIdx_getElem l a i h
  by_contra hge
  rw [List.getElem?_eq_none (by omega)] at hg
  exact Option.noConfusion hg

/-- C5: for a Morgan Stanley Releases data row whose Price and Net Share
Proceeds fields parse cleanly, the row is emitted with the Value field
equal to Price times Net Share Proceeds formatted to two decimal places,
placed immediately after the Net Share Proceeds field; and in the emitted
header the Value column name sits immediately after Net Share Proceeds
(Order Number preceding Net Share Proceeds, as in the report format). -/
theorem C5_releases_value (header row : List String) (pI tI oI nI : Nat)
    (ps ns : String) (p n : Int × Nat)
    (hp : findIdx "Price" header = some pI)
    (ht : findIdx "Type" header = some tI)
    (ho : findIdx "Order Number" header = some oI)
    (hn : findIdx "Net Share Proceeds" header = some nI)
    (hon : oI < nI)
    (hnr : nI < row.length) (htr : tI < row.length)
    (hps : row[pI]? = some ps)
    (hpp : parseDec (removeChar '$' ps) = some p)
    (hns : row[nI]? = some ns)
    (hnn : parseDec ns = some n) :
    (∃ out, msRelRow pI tI oI nI row = .emit out ∧
      out[nI + 2]? = some (fmt2 (mulDec p n)) ∧
      out[nI + 1]? = some ns) ∧
    (msRelHeader oI nI header)[nI + 1]? = some "Net Share Proceeds" ∧
    (msRelHeader oI nI header)[nI + 2]? = some "Value" := by
  have hpg := findIdx_getElem header "Price" pI hp
  have htg := findIdx_getElem header "Type" tI ht
  have hng := findIdx_getElem header "Net Share Proceeds" nI hn
  have hnh := findIdx_lt_length header "Net Share Proceeds" nI hn
  have hpne : pI ≠ nI := by
    intro e
    rw [e, hng] at hpg
    exact absurd (Option.some.inj hpg) (by decide)
  have htne : tI ≠ nI := by
    intro e
    rw [e, hng] at htg
    exact absurd (Option.some.inj htg) (by decide)
  constructor
  · -- row part
    have htr1 : tI < (row.set pI (removeChar '$' ps)).length := by
      simpa using htr
    obtain ⟨ty, hty⟩ : ∃ ty, (row.set pI (removeChar '$' ps))[tI]? = some ty :=
      ⟨_, List.getElem?_eq_getElem htr1⟩
    have h2 : (if ty = "Release" then
          (row.set pI (removeChar '$' ps)).set tI "Buy"
        else row.set pI (removeChar '$' ps))[nI]? = some ns := by
      by_cases hrel : ty = "Release" <;>
        simp [hrel, List.getElem?_set_ne htne, List.getElem?_set_ne hpne, hns]
    refine ⟨pyInsert (nI + 2) (fmt2 (mulDec p n)) (pyInsert (oI + 1) "GOOG"
      (if ty = "Release" then (row.set pI (removeChar '$' ps)).set tI "Buy"
       else row.set pI (removeChar '$' ps))), ?_, ?_, ?_⟩
    · simp only [msRelRow, hps, hpp, hty, h2, hnn]
    · -- Value field position
      have hlen2 : (if ty = "Release" then
            (row.set pI (removeChar '$' ps)).set tI "Buy"
          else row.set pI (removeChar '$' ps)).length = row.length := by
        by_cases hrel : ty = "Release" <;> simp [hrel]
      apply pyInsert_getElem_self
      rw [pyInsert_length, hlen2]
      omega
    · -- Net Share Proceeds field position
      have hlen2 : (if ty = "Release" then
            (row.set pI (removeChar '$' ps)).set tI "Buy"
          else row.set pI (removeChar '$' ps)).length = row.length := by
        by_cases hrel : ty = "Release" <;> simp [hrel]
      rw [pyInsert_getElem_lt _ (nI + 2) (nI + 1) _ (by omega)
        (by rw [pyInsert_length, hlen2]; omega)]
      rw [pyInsert_getElem_succ _ (oI + 1) nI _ (by omega)
        (by rw [hlen2]; omega)]
      exact h2
  · -- header part
    constructor
    · rw [msRelHeader]
      rw [pyInsert_getElem_lt _ (nI + 2) (nI + 1) _ (by omega)
        (by rw [pyInsert_length]; omega)]
      rw [pyInsert_getElem_succ _ (oI + 1) nI _ (by omega) (by omega)]
      exact hng
    · rw [msRelHeader]
      apply pyInsert_getElem_self
      rw [pyInsert_length]
      omega

/-- C5 witness: the Releases row theorem applied to a concrete header and
row; the Value 42.00 = 10.50 times 4 lands right after Net Share Proceeds
in both the emitted row and the emitted header. -/
theorem C5_witness :
    ((∃ out, msRelRow 3 2 1 4 ["2024-01-02", "123", "Release", "$10.50", "4"]
        = .emit out ∧
      out[6]? = some (fmt2 (mulDec (1050, 2) (4, 0))) ∧
      out[5]? = some "4") ∧
    (msRelHeader 1 4 ["Vest Date", "Order Number", "Type", "Price",
      "Net Share Proceeds"])[5]? = some "Net Share Proceeds" ∧
    (msRelHeader 1 4 ["Vest Date", "Order Number", "Type", "Price",
      "Net Share Proceeds"])[6]? = some "Value") ∧
    fmt2 (mulDec (1050, 2) (4, 0)) = "42.00" :=
  ⟨C5_releases_value
    ["Vest Date", "Order Number", "Type", "Price", "Net Share Proceeds"]
    ["2024-01-02", "123", "Release", "$10.50", "4"] 3 2 1 4 "$10.50" "4"
    (1050, 2) (4, 0) (by decide) (by decide) (by decide) (by decide)
    (by decide) (by decide) (by decide) (by decide) (by decide) (by decide)
    (by decide), by decide⟩

/-- A successful optional lookup implies the index is within the list. -/
theorem getElem_some_lt {l : List α} {i : Nat} {a : α}
    (h : l[i]? = some a) : i < l.length := by
  by_contra hge
  rw [List.getElem?_eq_none (by omega)] at h
  exact Option.noConfusion h

/-- A string beginning (case-insensitively, after stripping) with
`sweep in` matches none of the rule prefixes before the `sweep in` rule, so
the rule table maps it to `Buy`. -/
theorem apply_rules_sweep_in (tt : String)
    (hsw : startsWithS "sweep in" (lowerS (pyStrip tt)) = true) :
    apply_conversion_rules tt conversion_rules = "Buy" := by
  obtain ⟨t, ht⟩ : ∃ t, (lowerS (pyStrip tt)).data =
      's' :: 'w' :: 'e' :: 'e' :: 'p' :: ' ' :: 'i' :: 'n' :: t := by
    rw [startsWithS] at hsw
    obtain ⟨t, ht⟩ := List.isPrefixOf_iff_prefix.mp hsw
    exact ⟨t, ht.symm⟩
  have hcap : startsWithS "capital gain" (lowerS (pyStrip tt)) = false := by
    rw [startsWithS, ht]
    rfl
  have hrei : startsWithS "reinvestment" (lowerS (pyStrip tt)) = false := by
    rw [startsWithS, ht]
    rfl
  rw [apply_conversion_rules, conversion_rules]
  simp only [applyRulesAux, hcap, hrei, hsw, Bool.false_eq_true, if_false,
    if_true]

/-- C8: a Vanguard brokerage data row whose Transaction Type starts
case-insensitively with `sweep in` and whose Principal Amount field is
`-100.00` is emitted with Transaction Type `Buy`, Principal Amount
`100.00`, and Shares `100.00` (the shares field set equal to the positive
principal). -/
theorem C8_sweep_in_row (row : List String) (tIdx pIdx sIdx : Nat)
    (tt : String)
    (hne1 : tIdx ≠ pIdx) (hne2 : tIdx ≠ sIdx)
    (htt : row[tIdx]? = some tt)
    (hsw : startsWithS "sweep in" (lowerS (pyStrip tt)) = true)
    (hpa : row[pIdx]? = some "-100.00")
    (hsh : sIdx < row.length) :
    (vbRow (some tIdx) (some pIdx) (some sIdx) row)[tIdx]? = some "Buy" ∧
    (vbRow (some tIdx) (some pIdx) (some sIdx) row)[pIdx]? = some "100.00" ∧
    (vbRow (some tIdx) (some pIdx) (some sIdx) row)[sIdx]? =
      some "100.00" := by
  have htl : tIdx < row.length := getElem_some_lt htt
  have hpl : pIdx < row.length := getElem_some_lt hpa
  have hpos : stripLeadMinus "-100.00" = "100.00" := by decide
  have hsh2 : sIdx < (row.set pIdx "100.00").length := by
    simpa using hsh
  have hrt : ((row.set pIdx "100.00").set sIdx "100.00")[tIdx]? = some tt := by
    rw [List.getElem?_set_ne (Ne.symm hne2),
      List.getElem?_set_ne (Ne.symm hne1)]
    exact htt
  have hvb : vbRow (some tIdx) (some pIdx) (some sIdx) row =
      ((row.set pIdx "100.00").set sIdx "100.00").set tIdx "Buy" := by
    simp only [vbRow, htt, hsw, Bool.true_or, if_true, hpa, hpos,
      if_pos hsh2, hpos, hrt, apply_rules_sweep_in tt hsw]
  rw [hvb]
  refine ⟨?_, ?_, ?_⟩
  · exact List.getElem?_set_eq_of_lt "Buy" (by simpa using htl)
  · rw [List.getElem?_set_ne hne1]
    by_cases hps : sIdx = pIdx
    · subst hps
      exact List.getElem?_set_eq_of_lt "100.00" (by simpa using hsh)
    · rw [List.getElem?_set_ne hps]
      exact List.getElem?_set_eq_of_lt "100.00" (by simpa using hpl)
  · rw [List.getElem?_set_ne hne2]
    exact List.getElem?_set_eq_of_lt "100.00" (by simpa using hsh)

/-- C8 witness: the sweep-in theorem applied to a concrete brokerage row
with Transaction Type `Sweep In` and Principal Amount `-100.00`. -/
theorem C8_witness :
    (vbRow (some 3) (some 4) (some 5)
      ["2024", "2024", "2024", "Sweep In", "-100.00", "0"])[3]? =
        some "Buy" ∧
    (vbRow (some 3) (some 4) (some 5)
      ["2024", "2024", "2024", "Sweep In", "-100.00", "0"])[4]? =
        some "100.00" ∧
    (vbRow (some 3) (some 4) (some 5)
      ["2024", "2024", "2024", "Sweep In", "-100.00", "0"])[5]? =
        some "100.00" :=
  C8_sweep_in_row ["2024", "2024", "2024", "Sweep In", "-100.00", "0"]
    3 4 5 "Sweep In" (by decide) (by decide) (by decide) (by decide)
    (by decide) (by decide)

/-- When no line is recognized as a Fidelity header, the preamble scanner
collects nothing. -/
theorem fidCapture_nil :
    ∀ (ls : List String), (∀ l ∈ ls, fidRecognizesHeader l = false) →
      fidCapture ls false = [] := by
  intro ls
  induction ls with
  | nil => intro _; rfl
  | cons l t ih =>
    intro h
    rw [fidCapture]
    by_cases hb : pyStrip l == ""
    · rw [if_pos hb]
      exact ih (fun x hx => h x (List.mem_cons_of_mem l hx))
    · rw [if_neg hb, if_neg (by simp), h l (List.mem_cons_self l t),
        if_neg (by simp)]
      exact ih (fun x hx => h x (List.mem_cons_of_mem l hx))

/-- When no line contains the brokerage transaction-section marker, the
brokerage header scanner fails. -/
theorem vbFindHeader_none :
    ∀ (ls : List String),
      (∀ l ∈ ls,
        substrIn "Account Number,Trade Date,Settlement Date" l = false) →
      vbFindHeader ls = none := by
  intro ls
  induction ls with
  | nil => intro _; rfl
  | cons l t ih =>
    intro h
    rw [vbFindHeader, h l (List.mem_cons_self l t)]
    simp only [Bool.false_eq_true, if_false]
    exact ih (fun x hx => h x (List.mem_cons_of_mem l hx))

/-- When no stripped line starts with the Vanguard retirement header
marker, the Vanguard 401k header scanner fails. -/
theorem vgFindHeader_none :
    ∀ (ls : List String),
      (∀ l ∈ ls,
        startsWithS "Account Number,Trade Date" (pyStrip l) = false) →
      vgFindHeader ls = none := by
  intro ls
  induction ls with
  | nil => intro _; rfl
  | cons l t ih =>
    intro h
    rw [vgFindHeader, h l (List.mem_cons_self l t)]
    simp only [Bool.false_eq_true, if_false]
    exact ih (fun x hx => h x (List.mem_cons_of_mem l hx))

/-- C1 counterexample: a file whose header line is recognized (starts with
`Date,`) but matches neither Fidelity variant (six columns) makes the
converter exit nonzero after the standardized header row has already been
written to standard output: the output is not zero bytes. -/
theorem C1_counterexample :
    process_fidelity_csv ["Date,A,B,C,D,E"] =
      ⟨[["Date", "Investment", "Transaction Type", "Shares", "Amount"]],
       ["Error: Unsupported CSV format."], 1⟩ ∧
    ([["Date", "Investment", "Transaction Type", "Shares", "Amount"]] :
      List (List String)) ≠ [] := by
  exact ⟨by decide, by decide⟩

/-- C1 (amended): on a file with no recognizable transaction header, the
Fidelity and Morgan Stanley converters abort with an error-stream message,
nonzero exit and no output; the Vanguard brokerage converter writes the
error message but returns normally with exit code 0 and no output; the
Vanguard 401k converter silently returns empty content with no error. On a
recognized header that matches no known variant, Morgan Stanley and
Vanguard 401k abort with nonzero exit (respectively an uncaught error) and
no output, but the Fidelity converter aborts only after its standardized
header row has already been written to standard output. -/
theorem C1_amended (ls1 ls2 ls4 ls5 ls6 rest2 rest3 rest6 : List String)
    (hl2 hl3 hl6 : String)
    (h1 : ∀ l ∈ ls1, fidRecognizesHeader l = false)
    (h2c : fidCapture ls2 false = hl2 :: rest2)
    (h2a : ((csvParseLine hl2)[0]? == some "Date" &&
      (csvParseLine hl2).length == 5) = false)
    (h2b : ((csvParseLine hl2)[0]? == some "Run Date" &&
      (csvParseLine hl2).length == 13) = false)
    (h3a : (csvParseLine hl3).contains "Vest Date" = false)
    (h3b : (csvParseLine hl3).contains "Execution Date" = false)
    (h4 : ∀ l ∈ ls4,
      substrIn "Account Number,Trade Date,Settlement Date" l = false)
    (h5 : ∀ l ∈ ls5,
      startsWithS "Account Number,Trade Date" (pyStrip l) = false)
    (h6c : vgFindHeader ls6 = some (hl6, rest6))
    (h6a : ((splitOnChar ',' (pyStrip hl6)).map pyStrip).contains
      "Dollar Amount" = false)
    (h6b : ((splitOnChar ',' (pyStrip hl6)).map pyStrip).contains
      "Principal Amount" = false) :
    process_fidelity_csv ls1 =
      ⟨[], ["Error: No data found in file."], 1⟩ ∧
    process_fidelity_csv ls2 =
      ⟨[["Date", "Investment", "Transaction Type", "Shares", "Amount"]],
       ["Error: Unsupported CSV format."], 1⟩ ∧
    process_morgan_stanley_report (hl3 :: rest3) =
      ⟨[], ["Error: Unknown report type."], 1⟩ ∧
    process_morgan_stanley_report [] =
      ⟨[], ["An unexpected error occurred"], 1⟩ ∧
    process_vanguard_csv ls4 =
      ⟨[], ["Brokerage transaction data not found"], 0⟩ ∧
    convert_vanguard_401k_csv ls5 = .ok [] ∧
    convert_vanguard_401k_csv ls6 =
      .error "Unsupported CSV format: missing amount column" := by
  refine ⟨?_, ?_, ?_, rfl, ?_, ?_, ?_⟩
  · rw [process_fidelity_csv, fidCapture_nil ls1 h1]
  · rw [process_fidelity_csv, h2c]
    simp only [h2a, h2b, Bool.false_eq_true, if_false, fidStdHeader]
  · rw [process_morgan_stanley_report]
    simp only [h3a, h3b, Bool.false_eq_true, if_false]
  · rw [process_vanguard_csv, vbFindHeader_none ls4 h4]
  · rw [convert_vanguard_401k_csv, vgFindHeader_none ls5 h5]
  · rw [convert_vanguard_401k_csv, h6c]
    simp only [h6a, h6b, Bool.not_false, Bool.and_self, if_true]

/-- C1 witness: the amended statement applied to concrete inputs: a
headerless Fidelity file, a six-column `Date,` header, an unknown Morgan
Stanley report, a brokerage file without the transaction marker, a
headerless Vanguard retirement file, and a Vanguard retirement file whose
header lacks both amount columns. -/
theorem C1_witness :
    process_fidelity_csv ["just a preamble line"] =
      ⟨[], ["Error: No data found in file."], 1⟩ ∧
    process_fidelity_csv ["Date,A,B,C,D,E,F"] =
      ⟨[["Date", "Investment", "Transaction Type", "Shares", "Amount"]],
       ["Error: Unsupported CSV format."], 1⟩ ∧
    process_morgan_stanley_report ["Strange Header,Misc", "1,2"] =
      ⟨[], ["Error: Unknown report type."], 1⟩ ∧
    process_morgan_stanley_report [] =
      ⟨[], ["An unexpected error occurred"], 1⟩ ∧
    process_vanguard_csv ["Holdings section", "VTSAX,100"] =
      ⟨[], ["Brokerage transaction data not found"], 0⟩ ∧
    convert_vanguard_401k_csv ["informational text only"] = .ok [] ∧
    convert_vanguard_401k_csv
      ["Account Number,Trade Date,Transaction Description", "1,2,3"] =
      .error "Unsupported CSV format: missing amount column" :=
  C1_amended ["just a preamble line"] ["Date,A,B,C,D,E,F"]
    ["Holdings section", "VTSAX,100"] ["informational text only"]
    ["Account Number,Trade Date,Transaction Description", "1,2,3"]
    [] ["1,2"] ["1,2,3"] "Date,A,B,C,D,E,F" "Strange Header,Misc"
    "Account Number,Trade Date,Transaction Description"
    (by decide) (by decide) (by decide) (by decide) (by decide) (by decide)
    (by decide) (by decide) (by decide) (by decide) (by decide)

/-- C2 counterexample: a Fidelity 401k Transfers row whose Amount field
(`abc`) cannot be parsed aborts the whole conversion with exit code 1, and
the valid Contributions row that follows it is never emitted: the row is
not merely dropped with processing continuing. -/
theorem C2_counterexample :
    process_fidelity_csv
      ["Date,Investment,Transaction Type,Shares,Amount",
       "2024-01-15,X,Transfers,1,abc",
       "2024-01-16,X,Contributions,1,5.00"] =
      ⟨[["Date", "Investment", "Transaction Type", "Shares", "Amount"]],
       ["An error occurred"], 1⟩ := by
  decide

/-- C2 (amended): only the Morgan Stanley converter implements the
diagnose-drop-continue behaviour: a Releases row with an unparsable Price
is skipped with a warning naming the row while the remaining rows are
still processed. In the Fidelity 401k converter an unparsable nonempty
Amount on a Transfers row raises an error that only the whole-file handler
catches, aborting the conversion; in the Vanguard 401k converter an
unparsable shares field on a Miscellaneous Credits row raises in the
unguarded zero filter and likewise aborts the whole file. -/
theorem C2_amended (priceIdx typeIdx orderIdx netIdx : Nat)
    (row : List String) (rest : List (List String)) (ps : String)
    (date inv sh am : String) (rest2 : List (List String))
    (hdr2 vrow : List String) (vrest : List (List String))
    (sharesCol amountCol : String) (descIdx dIdx sIdx : Nat)
    (tdesc sv : String)
    (hps : row[priceIdx]? = some ps)
    (hpn : parseDec (removeChar '$' ps) = none)
    (ham : am ≠ "")
    (hamn : parseDec am = none)
    (hvd : findIdx "Transaction Description" hdr2 = some dIdx)
    (hvrow : vrow[dIdx]? = some tdesc)
    (hvs : substrIn "Source to Source/Fund to Fund Transfer" tdesc = false)
    (hvm : startsWithS "Miscellaneous Credits" tdesc = true)
    (hvc : findIdx sharesCol hdr2 = some sIdx)
    (hvv : vrow[sIdx]? = some sv)
    (hvn : parseDec sv = none) :
    (msRelRow priceIdx typeIdx orderIdx netIdx row =
      .warnSkip ("Warning: Could not parse price in Releases row: " ++
        joinComma row ++ ". Skipping.") ∧
    runRowsW (msRelRow priceIdx typeIdx orderIdx netIdx) (row :: rest) =
      ⟨(runRowsW (msRelRow priceIdx typeIdx orderIdx netIdx) rest).rows,
       ("Warning: Could not parse price in Releases row: " ++
         joinComma row ++ ". Skipping.") ::
         (runRowsW (msRelRow priceIdx typeIdx orderIdx netIdx) rest).warns,
       (runRowsW (msRelRow priceIdx typeIdx orderIdx netIdx)
         rest).aborted⟩) ∧
    (fid401kRow [date, inv, "Transfers", sh, am] = .abort ∧
    runRowsW fid401kRow ([date, inv, "Transfers", sh, am] :: rest2) =
      ⟨[], [], true⟩) ∧
    (vg401kRow hdr2 true false sharesCol amountCol descIdx vrow = .abort ∧
    vgLoop (vg401kRow hdr2 true false sharesCol amountCol descIdx)
      (vrow :: vrest) = ([], true)) := by
  have hmsrel : msRelRow priceIdx typeIdx orderIdx netIdx row =
      .warnSkip ("Warning: Could not parse price in Releases row: " ++
        joinComma row ++ ". Skipping.") := by
    simp only [msRelRow, hps, hpn]
  have hfid : fid401kRow [date, inv, "Transfers", sh, am] = .abort := by
    have hne : ("Transfers" = "Change in Market Value") = False := by simp
    simp only [fid401kRow, hne, if_false, beq_self_eq_true, Bool.true_or,
      Bool.true_and, bne_iff_ne, ne_eq, ham, not_false_eq_true, if_true,
      hamn]
  have hvrow0 : vrow ≠ [] := by
    intro e
    subst e
    simp at hvrow
  have hvg : vg401kRow hdr2 true false sharesCol amountCol descIdx vrow =
      .abort := by
    simp only [vg401kRow, hvd, hvrow, hvs, hvm, hvc, hvv, hvn,
      Bool.true_and, Bool.false_eq_true, if_false, if_true]
  refine ⟨⟨hmsrel, ?_⟩, ⟨hfid, ?_⟩, ⟨hvg, ?_⟩⟩
  · rw [runRowsW, hmsrel]
  · rw [runRowsW, hfid]
  · rw [vgLoop, if_neg hvrow0, hvg]

/-- C2 witness: the amended statement applied to a concrete unparsable
Releases price row, a concrete unparsable Fidelity Transfers amount, and a
concrete unparsable Vanguard Miscellaneous Credits shares value. -/
theorem C2_witness :
    (msRelRow 3 2 1 4 ["2024-01-02", "9", "Release", "$bad", "4"] =
      .warnSkip ("Warning: Could not parse price in Releases row: " ++
        joinComma ["2024-01-02", "9", "Release", "$bad", "4"] ++
        ". Skipping.") ∧
    runRowsW (msRelRow 3 2 1 4)
      (["2024-01-02", "9", "Release", "$bad", "4"] :: []) =
      ⟨(runRowsW (msRelRow 3 2 1 4) []).rows,
       ("Warning: Could not parse price in Releases row: " ++
         joinComma ["2024-01-02", "9", "Release", "$bad", "4"] ++
         ". Skipping.") :: (runRowsW (msRelRow 3 2 1 4) []).warns,
       (runRowsW (msRelRow 3 2 1 4) []).aborted⟩) ∧
    (fid401kRow ["2024-01-15", "X", "Transfers", "1", "abc"] = .abort ∧
    runRowsW fid401kRow (["2024-01-15", "X", "Transfers", "1", "abc"] ::
      [["2024-01-16", "X", "Contributions", "1", "5.00"]]) =
      ⟨[], [], true⟩) ∧
    (vg401kRow ["Account Number", "Trade Date", "Transaction Description",
        "Type", "Investment Name", "Share Price", "Transaction Shares",
        "Dollar Amount"] true false "Transaction Shares" "Dollar Amount" 2
      ["A1", "01/02/2024", "Miscellaneous Credits", "F", "1.00", "bad",
        "xyz"] = .abort ∧
    vgLoop (vg401kRow ["Account Number", "Trade Date",
        "Transaction Description", "Type", "Investment Name", "Share Price",
        "Transaction Shares", "Dollar Amount"] true false
        "Transaction Shares" "Dollar Amount" 2)
      (["A1", "01/02/2024", "Miscellaneous Credits", "F", "1.00", "bad",
        "xyz"] :: []) = ([], true)) :=
  C2_amended 3 2 1 4 ["2024-01-02", "9", "Release", "$bad", "4"] [] "$bad"
    "2024-01-15" "X" "1" "abc"
    [["2024-01-16", "X", "Contributions", "1", "5.00"]]
    ["Account Number", "Trade Date", "Transaction Description", "Type",
     "Investment Name", "Share Price", "Transaction Shares",
     "Dollar Amount"]
    ["A1", "01/02/2024", "Miscellaneous Credits", "F", "1.00", "bad", "xyz"]
    [] "Transaction Shares" "Dollar Amount" 2 2 6
    "Miscellaneous Credits" "xyz"
    (by decide) (by decide) (by decide) (by decide) (by decide) (by decide)
    (by decide) (by decide) (by decide) (by decide) (by decide)

/-- C3 counterexample: a Vanguard brokerage file whose recognized
transaction header lacks the required Transaction Type column is not
aborted: the converter records a -1 sentinel, silently skips every
transformation, and keeps emitting the data rows with exit code 0. -/
theorem C3_counterexample :
    process_vanguard_csv
      ["Account Number,Trade Date,Settlement Date,Amount", "1,2,3,50"] =
      ⟨["Account Number,Trade Date,Settlement Date,Amount", "1,2,3,50"],
       [], 0⟩ := by
  decide

/-- C3 (amended): the Morgan Stanley converter aborts the whole file with
a missing-column error and nonzero exit when a structurally required
column (Price for Releases, Type for Withdrawals) is absent, writing no
output; the Vanguard 401k converter likewise aborts when Transaction
Description is missing. But the Vanguard brokerage converter silently
tolerates a missing Transaction Type column: it continues and emits every
data row unchanged, with exit code 0. -/
theorem C3_amended (hl vl bl vgl : String) (rest vrest brest : List String)
    (ls : List String)
    (hvd : (csvParseLine hl).contains "Vest Date" = true)
    (hpm : findIdx "Price" (csvParseLine hl) = none)
    (hwd : (csvParseLine vl).contains "Vest Date" = false)
    (hwe : (csvParseLine vl).contains "Execution Date" = true)
    (hwm : findIdx "Type" (csvParseLine vl) = none)
    (hvf : vgFindHeader ls = some (vgl, brest))
    (hvda : ((splitOnChar ',' (pyStrip vgl)).map pyStrip).contains
      "Dollar Amount" = true)
    (hvtd : findIdx "Transaction Description"
      ((splitOnChar ',' (pyStrip vgl)).map pyStrip) = none)
    (hbf : vbFindHeader (bl :: vrest) = some (bl, vrest))
    (hbm : "Transaction Type" ∉ csvParseLine (pyStrip bl)) :
    process_morgan_stanley_report (hl :: rest) =
      ⟨[], ["Error: A required column was not found in the CSV header."],
       1⟩ ∧
    process_morgan_stanley_report (vl :: vrest) =
      ⟨[], ["Error: A required column was not found in the CSV header."],
       1⟩ ∧
    convert_vanguard_401k_csv ls =
      .error "Transaction Description is not in the header" ∧
    (process_vanguard_csv (bl :: vrest)).out =
      pyStrip bl :: (vbTakeRows vrest).map
        (fun l => joinComma (csvParseLine l)) ∧
    (process_vanguard_csv (bl :: vrest)).err = [] ∧
    (process_vanguard_csv (bl :: vrest)).exitCode = 0 := by
  have hbrow : ∀ r : List String,
      vbRow none (findIdx "Principal Amount" (csvParseLine (pyStrip bl)))
        (findIdx "Shares" (csvParseLine (pyStrip bl))) r = r := by
    intro r
    rfl
  have hbout : process_vanguard_csv (bl :: vrest) =
      ⟨pyStrip bl :: (vbTakeRows vrest).map
        (fun l => joinComma (csvParseLine l)), [], 0⟩ := by
    rw [process_vanguard_csv, hbf]
    simp only [findIdx_eq_none _ _ hbm, hbrow]
  refine ⟨?_, ?_, ?_, ?_, ?_, ?_⟩
  · rw [process_morgan_stanley_report]
    simp only [hvd, if_true, hpm]
  · rw [process_morgan_stanley_report]
    simp only [hwd, hwe, Bool.false_eq_true, if_false, if_true, hwm]
  · rw [convert_vanguard_401k_csv, hvf]
    simp only [hvda, Bool.not_true, Bool.false_and, Bool.false_eq_true,
      if_false, hvtd]
  · rw [hbout]
  · rw [hbout]
  · rw [hbout]

/-- C3 witness: the amended statement applied to a Releases header without
Price, a Withdrawals header without Type, a Vanguard retirement header
without Transaction Description, and a brokerage header without
Transaction Type followed by one data row. -/
theorem C3_witness :
    process_morgan_stanley_report ["Vest Date,Order Number", "1,2"] =
      ⟨[], ["Error: A required column was not found in the CSV header."],
       1⟩ ∧
    process_morgan_stanley_report ["Execution Date,Order Number",
      "1,2"] =
      ⟨[], ["Error: A required column was not found in the CSV header."],
       1⟩ ∧
    convert_vanguard_401k_csv
      ["Account Number,Trade Date,Dollar Amount", "1,2,3"] =
      .error "Transaction Description is not in the header" ∧
    (process_vanguard_csv
      ["Account Number,Trade Date,Settlement Date,Amount", "9,8,7,6"]).out =
      pyStrip "Account Number,Trade Date,Settlement Date,Amount" ::
        (vbTakeRows ["9,8,7,6"]).map
          (fun l => joinComma (csvParseLine l)) ∧
    (process_vanguard_csv
      ["Account Number,Trade Date,Settlement Date,Amount",
       "9,8,7,6"]).err = [] ∧
    (process_vanguard_csv
      ["Account Number,Trade Date,Settlement Date,Amount",
       "9,8,7,6"]).exitCode = 0 :=
  C3_amended "Vest Date,Order Number" "Execution Date,Order Number"
    "Account Number,Trade Date,Settlement Date,Amount"
    "Account Number,Trade Date,Dollar Amount"
    ["1,2"] ["9,8,7,6"] ["1,2,3"]
    ["Account Number,Trade Date,Dollar Amount", "1,2,3"]
    (by decide) (by decide) (by decide) (by decide) (by decide) (by decide)
    (by decide) (by decide) (by decide) (by decide)

/-- The Fidelity 401k finish stage always emits a five-field row. -/
theorem fid401kFinish_emit_five (d i t s a : String) (e : List String)
    (h : fid401kFinish d i t s a = .emit e) : e.length = 5 := by
  simp only [fid401kFinish] at h
  cases h
  rfl

/-- Every row emitted by the Fidelity 401k row transformer has exactly
five fields. -/
theorem fid401kRow_emit_five :
    ∀ (row e : List String), fid401kRow row = .emit e → e.length = 5 := by
  intro row e h
  rcases row with _ | ⟨a, _ | ⟨b, _ | ⟨c, _ | ⟨d, _ | ⟨f, _ | ⟨g, t⟩⟩⟩⟩⟩⟩ <;>
    simp only [fid401kRow] at h <;> try cases h
  repeat' split at h
  all_goals first
    | (cases h; rfl)
    | cases h
    | exact fid401kFinish_emit_five _ _ _ _ _ _ h

/-- Every row emitted by the Fidelity IRA row transformer has exactly five
fields. -/
theorem fidIRARow_emit_five :
    ∀ (row e : List String), fidIRARow row = .emit e → e.length = 5 := by
  intro row e h
  rw [fidIRARow] at h
  repeat' split at h
  all_goals first
    | (cases h; rfl)
    | cases h

/-- Rows surviving a `runRowsW` loop all satisfy any property enjoyed by
every row the step function can emit. -/
theorem runRowsW_rows_prop (step : List String → RowStep)
    (P : List String → Prop)
    (hstep : ∀ row e, step row = .emit e → P e) :
    ∀ rows, ∀ r ∈ (runRowsW step rows).rows, P r := by
  intro rows
  induction rows with
  | nil => intro r hr; simp [runRowsW] at hr
  | cons x xs ih =>
    intro r hr
    cases hs : step x with
    | emit e =>
      simp only [runRowsW, hs, List.mem_cons] at hr
      rcases hr with he | hr
      · subst he
        exact hstep x _ hs
      · exact ih r hr
    | skip =>
      simp only [runRowsW, hs] at hr
      exact ih r hr
    | warnSkip w =>
      simp only [runRowsW, hs] at hr
      exact ih r hr
    | abort =>
      simp only [runRowsW, hs] at hr
      simp at hr

/-- C4 counterexample: a Morgan Stanley Withdrawals data row carrying one
extra trailing field is emitted with seven fields while the emitted header
has six: the converter neither drops the mismatched row nor emits it with
the header's field count. -/
theorem C4_counterexample :
    (process_morgan_stanley_report
      ["Execution Date,Type,Order Number,Quantity,Net Amount",
       "2024-02-03,Sale,78,-1,$5.00,EXTRA"]).rows =
      [["Execution Date", "Type", "Order Number", "Symbol", "Quantity",
        "Net Amount"],
       ["2024-02-03", "Sell", "78", "GOOG", "1", "5.00", "EXTRA"]] ∧
    (["Execution Date", "Type", "Order Number", "Symbol", "Quantity",
      "Net Amount"] : List String).length = 6 ∧
    (["2024-02-03", "Sell", "78", "GOOG", "1", "5.00", "EXTRA"] :
      List String).length = 7 := by
  exact ⟨by decide, by decide, by decide⟩

/-- C4 (amended): the Fidelity converter keeps the invariant: every row it
writes (header included) has exactly the five fields of its standardized
header, and a data row whose field count differs from the detected
variant's width (5 or 13) is dropped. The Morgan Stanley, Vanguard 401k
and Vanguard brokerage converters perform no field-count check, so a row
with extra fields is emitted with a field count different from the emitted
header's. -/
theorem C4_amended (ls : List String) (row1 row2 : List String) :
    (∀ r ∈ (process_fidelity_csv ls).rows, r.length = 5) ∧
    (row1.length ≠ 5 → fid401kRow row1 = .skip) ∧
    (row2.length ≠ 13 → fidIRARow row2 = .skip) := by
  refine ⟨?_, ?_, ?_⟩
  · intro r hr
    cases hc : fidCapture ls false with
    | nil =>
      simp only [process_fidelity_csv, hc] at hr
      simp at hr
    | cons hl rest =>
      simp only [process_fidelity_csv, hc] at hr
      by_cases h1 : ((csvParseLine hl)[0]? == some "Date" &&
          (csvParseLine hl).length == 5) = true
      · simp only [h1, if_true, List.mem_cons] at hr
        rcases hr with he | hr
        · subst he; rfl
        · exact runRowsW_rows_prop fid401kRow (fun r => r.length = 5)
            fid401kRow_emit_five (rest.map csvParseLine) r hr
      · by_cases h2 : ((csvParseLine hl)[0]? == some "Run Date" &&
            (csvParseLine hl).length == 13) = true
        · simp only [h1, h2, Bool.false_eq_true, if_false, if_true,
            List.mem_cons] at hr
          rcases hr with he | hr
          · subst he; rfl
          · exact runRowsW_rows_prop fidIRARow (fun r => r.length = 5)
              fidIRARow_emit_five (rest.map csvParseLine) r hr
        · simp only [h1, h2, Bool.false_eq_true, if_false,
            List.mem_cons] at hr
          rcases hr with he | hr
          · subst he; rfl
          · simp at hr
  · intro h
    rcases row1 with _ | ⟨a, _ | ⟨b, _ | ⟨c, _ | ⟨d, _ | ⟨f, _ | ⟨g, t⟩⟩⟩⟩⟩⟩ <;>
      first
        | rfl
        | exact absurd rfl h
  · intro h
    rw [fidIRARow, if_pos (by simpa using h)]

/-- C4 witness: the amended statement applied to a concrete Fidelity 401k
file, a four-field row and a five-field row. -/
theorem C4_witness :
    (∀ r ∈ (process_fidelity_csv
      ["Date,Investment,Transaction Type,Shares,Amount",
       "2024-02-01,F,Contributions,1,2.00,EXTRA",
       "2024-02-02,F,Contributions,1,2.00"]).rows, r.length = 5) ∧
    fid401kRow ["a", "b", "c", "d"] = .skip ∧
    fidIRARow ["a", "b", "c", "d", "e"] = .skip := by
  have h := C4_amended
    ["Date,Investment,Transaction Type,Shares,Amount",
     "2024-02-01,F,Contributions,1,2.00,EXTRA",
     "2024-02-02,F,Contributions,1,2.00"]
    ["a", "b", "c", "d"] ["a", "b", "c", "d", "e"]
  exact ⟨h.1, h.2.1 (by decide), h.2.2 (by decide)⟩
